import Mathlib

/-!
Verification of the go-tunnel-lite broker against its specification.

This file gives a shallow embedding of the control-protocol core of the
go-tunnel-lite repository: the frame codec (internal/pkg/proto/message.go,
types.go), the broker session registry and message dispatch
(internal/server/server.go) and the per-tunnel public proxy
(internal/server/proxy.go).  Byte streams are lists of naturals below 256,
the Go maps keyed by strings are association lists, and the Go heap of
session / proxy objects is made explicit so that statements about evicted
or overwritten objects remain expressible.  Each handler is translated
line by line from the Go source; effects on the network are reified as
returned values (responses sent, connections closed, traces of actions).
-/

namespace GoTunnel

namespace proto

/-- Message kind constants from internal/pkg/proto/types.go. -/
def TypeAuth : Nat := 0x01

def TypeAuthResp : Nat := 0x02

def TypeRegisterTunnel : Nat := 0x10

def TypeRegisterTunnelResp : Nat := 0x11

def TypeNewProxy : Nat := 0x20

def TypeProxyReady : Nat := 0x21

def TypePing : Nat := 0x30

def TypePong : Nat := 0x31

/-- HeaderLen from types.go: 1 byte kind plus 4 bytes big-endian length. -/
def HeaderLen : Nat := 5

/-- MaxDataLen from types.go: maximal body size, 64 KiB. -/
def MaxDataLen : Nat := 64 * 1024

/-- Errors of the codec: ErrMsgTooLarge, and transport or short-read failures
(io.ReadFull returning EOF or ErrUnexpectedEOF). -/
inductive ProtoErr where
  | msgTooLarge
  | ioError
  deriving DecidableEq

/-- Message from internal/pkg/proto/message.go: a kind byte and a body. -/
structure Message where
  type_ : Nat
  data : List Nat
  deriving DecidableEq

/-- binary.BigEndian.PutUint32: the four big-endian bytes of a 32-bit value. -/
def putUint32 (n : Nat) : List Nat :=
  [n / 16777216 % 256, n / 65536 % 256, n / 256 % 256, n % 256]

/-- binary.BigEndian.Uint32: reassemble four big-endian bytes. -/
def getUint32 (b0 b1 b2 b3 : Nat) : Nat :=
  b0 * 16777216 + b1 * 65536 + b2 * 256 + b3

/-- Message.WriteTo from message.go.  Returns the bytes actually written to
the stream together with the error, if any: an oversized body is rejected
before anything is written, otherwise the 5-byte header is followed by the
body (an empty body writes no body bytes). -/
def Message.writeTo (m : Message) : List Nat × Option ProtoErr :=
  if m.data.length > MaxDataLen then
    ([], some ProtoErr.msgTooLarge)
  else
    (m.type_ :: (putUint32 m.data.length ++ m.data), none)

/-- Message.ReadFrom from message.go, over a byte-list stream.  Returns the
number of bytes consumed and either the decoded message or the error.  The
declared length is checked against MaxDataLen directly after the 5 header
bytes, before any body byte is read. -/
def Message.readFrom (s : List Nat) : Nat × Except ProtoErr Message :=
  match s with
  | t :: l0 :: l1 :: l2 :: l3 :: rest =>
    let dataLen := getUint32 l0 l1 l2 l3
    if dataLen > MaxDataLen then
      (HeaderLen, Except.error ProtoErr.msgTooLarge)
    else if rest.length < dataLen then
      (HeaderLen + rest.length, Except.error ProtoErr.ioError)
    else
      (HeaderLen + dataLen, Except.ok ⟨t, rest.take dataLen⟩)
  | other => (other.length, Except.error ProtoErr.ioError)

end proto

namespace server

/-- Association-list lookup, modelling a read of a Go map keyed by strings. -/
def lookupKey {α : Type} (k : String) : List (String × α) → Option α
  | [] => none
  | (k1, v) :: rest => if k1 = k then some v else lookupKey k rest

/-- Association-list removal of a key, modelling the Go delete builtin
(under the unique-keys invariant of a Go map both remove every binding
of the key). -/
def eraseKey {α : Type} (k : String) : List (String × α) → List (String × α)
  | [] => []
  | (k1, v) :: rest => if k1 = k then eraseKey k rest else (k1, v) :: eraseKey k rest

/-- Association-list update, modelling a Go map assignment: replace the
binding of the key when present, append it otherwise. -/
def setKey {α : Type} (k : String) (v : α) : List (String × α) → List (String × α)
  | [] => [(k, v)]
  | (k1, v1) :: rest => if k1 = k then (k, v) :: rest else (k1, v1) :: setKey k v rest

/-- Number of bindings of a key in an association list. -/
def countKey {α : Type} (k : String) : List (String × α) → Nat
  | [] => 0
  | (k1, _) :: rest => if k1 = k then countKey k rest + 1 else countKey k rest

/-- The keys of an association list. -/
def keys {α : Type} (l : List (String × α)) : List String :=
  l.map Prod.fst

/-- AuthRequest from internal/pkg/proto/types.go. -/
structure AuthRequest where
  clientID : String
  token : String
  version : String
  deriving DecidableEq

/-- AuthResponse from types.go, as sent by Server.sendAuthResponse. -/
structure AuthResponse where
  success : Bool
  message : String
  deriving DecidableEq

/-- TunnelConfig from types.go. -/
structure TunnelConfig where
  name : String
  type_ : String
  localAddr : String
  remotePort : Int
  deriving DecidableEq

/-- RegisterTunnelRequest from types.go. -/
structure RegisterTunnelRequest where
  tunnel : TunnelConfig
  deriving DecidableEq

/-- RegisterTunnelResponse from types.go; the broker fills it in
Server.sendRegisterTunnelResponse. -/
structure RegisterTunnelResponse where
  success : Bool
  message : String
  tunnelName : String
  remotePort : Int
  deriving DecidableEq

/-- A Proxy object of internal/server/proxy.go, with the identity it has on
the Go heap made explicit (pid) so an object stays expressible after the
registry drops its reference.  The closed flag is the field set by
Proxy.Stop; listening records that Start bound the listener and launched
the accept loop. -/
structure ProxyObj where
  pid : Nat
  name : String
  remotePort : Int
  closed : Bool
  listening : Bool
  deriving DecidableEq

/-- The broker state of internal/server/server.go: the session registry
keyed by clientID (values are heap identities of ClientSession objects),
the set of session objects whose stop channel has been closed, the proxies
registry keyed by tunnel name, and the heap of Proxy objects.  The two
counters supply fresh heap identities. -/
structure BrokerState where
  sessions : List (String × Nat)
  closedSessions : List Nat
  nextSid : Nat
  heap : List ProxyObj
  proxies : List (String × Nat)
  nextPid : Nat
  deriving DecidableEq

/-- The first read on a fresh control connection, as seen by
Server.handleNewConnection: either ReadMessage fails (deadline, transport
failure or malformed frame), or a frame of some kind arrives and its body
decodes to an AuthRequest or fails to (none). -/
inductive FirstRead where
  | readErr
  | msg (msgType : Nat) (decoded : Option AuthRequest)
  deriving DecidableEq

/-- Everything the authentication phase does that is visible outside:
responses written to the connection in order, whether the connection was
closed, and the clientID a session was created for, if any. -/
structure AuthOutcome where
  responses : List AuthResponse
  connClosed : Bool
  sessionFor : Option String
  deriving DecidableEq

/-- The authentication phase of Server.handleNewConnection (server.go lines
144 to 174), translated branch by branch: a read error closes silently; a
first frame whose kind is not TypeAuth closes silently; an undecodable
auth body draws a failure response and a close; a token mismatch draws a
failure response and a close; a matching token draws a success response
and a session is created for the clientID of the request. -/
def handleAuthPhase (serverToken : String) (ev : FirstRead) : AuthOutcome :=
  match ev with
  | FirstRead.readErr => ⟨[], true, none⟩
  | FirstRead.msg t dec =>
    if t ≠ proto.TypeAuth then ⟨[], true, none⟩
    else
      match dec with
      | none => ⟨[⟨false, "认证消息格式错误"⟩], true, none⟩
      | some authReq =>
        if authReq.token ≠ serverToken then ⟨[⟨false, "Token 错误"⟩], true, none⟩
        else ⟨[⟨true, "认证成功"⟩], false, some authReq.clientID⟩

/-- The duplicate-eviction prologue of session registration (server.go lines
176 to 183): when a session already occupies the clientID, close it and
delete its registry entry. -/
def authEvict (st : BrokerState) (clientID : String) : BrokerState :=
  match lookupKey clientID st.sessions with
  | some old =>
    { st with sessions := eraseKey clientID st.sessions,
              closedSessions := old :: st.closedSessions }
  | none => st

/-- Session registration after a successful authentication (server.go lines
176 to 203): evict a duplicate, then create a fresh session object and
bind the clientID to it.  Returns the new state and the heap identity of
the created session. -/
def authRegister (st : BrokerState) (clientID : String) : BrokerState × Nat :=
  let st1 := authEvict st clientID
  ({ st1 with sessions := setKey clientID st1.nextSid st1.sessions,
              nextSid := st1.nextSid + 1 }, st1.nextSid)

/-- The cleanup run when a session message loop exits (server.go lines 208
to 213): delete the registry entry for the clientID only when it still
holds this exact session object. -/
def sessionExitCleanup (st : BrokerState) (clientID : String) (sid : Nat) : BrokerState :=
  if lookupKey clientID st.sessions = some sid then
    { st with sessions := eraseKey clientID st.sessions }
  else st

/-- ClientSession.Close (server.go lines 395 to 407): mark the session
object closed; the registry is not touched. -/
def sessionClose (st : BrokerState) (sid : Nat) : BrokerState :=
  { st with closedSessions := sid :: st.closedSessions }

/-- Server.isPortAllowed (server.go lines 314 to 321): an empty whitelist
allows every port, otherwise membership decides. -/
def isPortAllowed (portSet : List Int) (port : Int) : Bool :=
  if portSet.length = 0 then true
  else portSet.contains port

/-- Server.sendRegisterTunnelResponse (server.go lines 324 to 340): the
struct literal there sets Success, Message and RemotePort and leaves
TunnelName at its zero value, the empty string. -/
def sendRegisterTunnelResponse (success : Bool) (message : String) (remotePort : Int) :
    RegisterTunnelResponse :=
  { success := success, message := message, tunnelName := "", remotePort := remotePort }

/-- Server.handleRegisterTunnel (server.go lines 279 to 312).  The decoded
request is passed as an Option (none models a Decode failure) and the
outcome of the net.Listen call inside Proxy.Start as bindOk.  On success a
fresh Proxy object is started (listener bound, accept loop running) and
the proxies registry binds the tunnel name to it, overwriting any previous
binding; nothing else of the state is touched. -/
def handleRegisterTunnel (portSet : List Int) (st : BrokerState)
    (req : Option RegisterTunnelRequest) (bindOk : Bool) :
    BrokerState × RegisterTunnelResponse :=
  match req with
  | none => (st, sendRegisterTunnelResponse false "请求格式错误" 0)
  | some r =>
    if ¬ isPortAllowed portSet r.tunnel.remotePort then
      (st, sendRegisterTunnelResponse false "端口不允许使用" 0)
    else if ¬ bindOk then
      (st, sendRegisterTunnelResponse false "启动代理失败" 0)
    else
      ({ st with
          heap := ⟨st.nextPid, r.tunnel.name, r.tunnel.remotePort, false, true⟩ :: st.heap,
          proxies := setKey r.tunnel.name st.nextPid st.proxies,
          nextPid := st.nextPid + 1 },
        sendRegisterTunnelResponse true "注册成功" r.tunnel.remotePort)

/-- The outcome of Server.handleMessage on one message: the state after the
dispatch, whether the control connection was closed by it, whether a Pong
was written, and the registration response written, if any. -/
structure MsgOutcome where
  state : BrokerState
  connClosed : Bool
  sentPong : Bool
  tunnelResp : Option RegisterTunnelResponse
  deriving DecidableEq

/-- Server.handleMessage (server.go lines 256 to 276): a switch on the
message kind handling TypePing (answer Pong), TypePong (nothing beyond the
activity refresh) and TypeRegisterTunnel; every other kind falls to the
default branch, which only logs and changes nothing. -/
def handleMessage (portSet : List Int) (st : BrokerState) (msgType : Nat)
    (req : Option RegisterTunnelRequest) (bindOk : Bool) : MsgOutcome :=
  if msgType = proto.TypePing then ⟨st, false, true, none⟩
  else if msgType = proto.TypePong then ⟨st, false, false, none⟩
  else if msgType = proto.TypeRegisterTunnel then
    let r := handleRegisterTunnel portSet st req bindOk
    ⟨r.1, false, false, some r.2⟩
  else ⟨st, false, false, none⟩

/-- Observable actions of the proxy data path of proxy.go. -/
inductive ProxyAction where
  | dialTCP (addr : String)
  | controlNotify (tunnelName : String) (proxyID : String)
  | forwardPair (proxyID : String)
  | closeData
  | closeUser
  deriving DecidableEq

/-- Discriminator for control-channel notification actions. -/
def ProxyAction.isControlNotify : ProxyAction → Bool
  | ProxyAction.controlNotify _ _ => true
  | _ => false

/-- Proxy.handleConnection (proxy.go lines 143 to 161) as the trace of
actions it performs on an accepted public connection: it dials the
hard-coded address 127.0.0.1:8080, and when the dial succeeds it runs the
bidirectional forward labelled with the tunnel name (the proxyID argument
it passes is p.name) and closes both sockets; when the dial fails it only
closes the inbound connection. -/
def handleConnection (p : ProxyObj) (dialOk : Bool) : List ProxyAction :=
  if dialOk then
    [ProxyAction.dialTCP "127.0.0.1:8080", ProxyAction.forwardPair p.name,
      ProxyAction.closeData, ProxyAction.closeUser]
  else
    [ProxyAction.dialTCP "127.0.0.1:8080", ProxyAction.closeUser]

/-- Proxy.Stop (proxy.go lines 163 to 179) applied to one heap object when
its identity is among the stopped ones: set closed and release the
listener; a second stop is a no-op, so the update is idempotent. -/
def stopProxyObj (pids : List Nat) (p : ProxyObj) : ProxyObj :=
  if p.pid ∈ pids then { p with closed := true, listening := false } else p

/-- The proxy-stopping sweep of Server.Stop (server.go lines 97 to 102):
every proxy still referenced by the proxies registry is stopped; objects
the registry no longer references are not visited. -/
def stopProxies (st : BrokerState) : BrokerState :=
  { st with heap := st.heap.map (stopProxyObj (st.proxies.map Prod.snd)) }

/-- Concrete empty broker state used by witnesses. -/
def st0 : BrokerState := ⟨[], [], 0, [], [], 0⟩

/-- Concrete broker state holding one session for clientID c1. -/
def stSession : BrokerState := ⟨[("c1", 0)], [], 1, [], [], 0⟩

/-- Concrete broker state holding one running proxy named web on port 8080. -/
def stWeb : BrokerState := ⟨[], [], 0, [⟨0, "web", 8080, false, true⟩], [("web", 0)], 1⟩

/-- Concrete registration request for tunnel web on public port 8080. -/
def reqWeb : RegisterTunnelRequest := ⟨⟨"web", "tcp", "127.0.0.1:3000", 8080⟩⟩

end server

end GoTunnel

namespace GoTunnel

/-- Big-endian 32-bit byte split and reassembly round trip for lengths
below the body bound. -/
theorem getUint32_putUint32 (n : Nat) (h : n ≤ proto.MaxDataLen) :
    proto.getUint32 (n / 16777216 % 256) (n / 65536 % 256) (n / 256 % 256) (n % 256) = n := by
  unfold proto.getUint32 proto.MaxDataLen at *
  omega

/-- C4: for every message whose body length is at most 64 KiB, decoding the
byte stream produced by encoding the message succeeds and yields a message
with exactly the original kind and body bytes (an empty body included). -/
theorem frame_roundtrip (m : proto.Message) (h : m.data.length ≤ proto.MaxDataLen) :
    m.writeTo.2 = none ∧ (proto.Message.readFrom m.writeTo.1).2 = Except.ok m := by
  have hn : ¬ m.data.length > proto.MaxDataLen := Nat.not_lt.mpr h
  have hw : m.writeTo.1 =
      m.type_ :: (m.data.length / 16777216 % 256) :: (m.data.length / 65536 % 256) ::
        (m.data.length / 256 % 256) :: (m.data.length % 256) :: m.data := by
    simp [proto.Message.writeTo, hn, proto.putUint32]
  refine ⟨by simp [proto.Message.writeTo, hn], ?_⟩
  rw [hw]
  simp [proto.Message.readFrom, getUint32_putUint32 m.data.length h, hn]

/-- C4 witness: the round trip evaluated at a concrete message. -/
theorem frame_roundtrip_witness :
    (⟨0x30, [1, 2, 3]⟩ : proto.Message).data.length ≤ proto.MaxDataLen ∧
      (proto.Message.readFrom (proto.Message.writeTo ⟨0x30, [1, 2, 3]⟩).1).2 =
        Except.ok ⟨0x30, [1, 2, 3]⟩ :=
  ⟨by decide, (frame_roundtrip ⟨0x30, [1, 2, 3]⟩ (by decide)).2⟩

/-- C5: the 64 KiB bound is enforced on both directions.  Encoding a message
whose body exceeds the bound fails with the too-large error and writes
nothing to the stream; decoding a frame whose declared length exceeds the
bound fails with the too-large error after consuming exactly the 5 header
bytes, whatever follows them on the stream (in particular before any body
byte is read). -/
theorem frame_size_bound (m : proto.Message) (s : List Nat) (t l0 l1 l2 l3 : Nat) :
    (m.data.length > proto.MaxDataLen →
      m.writeTo = ([], some proto.ProtoErr.msgTooLarge)) ∧
    (proto.getUint32 l0 l1 l2 l3 > proto.MaxDataLen →
      proto.Message.readFrom (t :: l0 :: l1 :: l2 :: l3 :: s) =
        (proto.HeaderLen, Except.error proto.ProtoErr.msgTooLarge)) := by
  constructor
  · intro hbig
    simp [proto.Message.writeTo, hbig]
  · intro hbig
    simp [proto.Message.readFrom, hbig]

/-- C5 witness: both bound checks evaluated at concrete inputs, a body of
65537 bytes for the encoder and a declared length of 65537 for the decoder
over an empty remaining stream. -/
theorem frame_size_bound_witness :
    proto.Message.writeTo ⟨1, List.replicate (proto.MaxDataLen + 1) 0⟩ =
      ([], some proto.ProtoErr.msgTooLarge) ∧
    proto.Message.readFrom [2, 0, 1, 0, 1] =
      (proto.HeaderLen, Except.error proto.ProtoErr.msgTooLarge) :=
  ⟨(frame_size_bound ⟨1, List.replicate (proto.MaxDataLen + 1) 0⟩ [] 2 0 1 0 1).1
      (by show (List.replicate (proto.MaxDataLen + 1) 0).length > proto.MaxDataLen
          simp only [List.length_replicate]
          omega),
   (frame_size_bound ⟨1, List.replicate (proto.MaxDataLen + 1) 0⟩ [] 2 0 1 0 1).2
      (by decide)⟩

namespace server

/-- Looking a key up after erasing it finds nothing. -/
theorem lookupKey_eraseKey_self {α : Type} (k : String) (l : List (String × α)) :
    lookupKey k (eraseKey k l) = none := by
  induction l with
  | nil => rfl
  | cons hd tl ih =>
    obtain ⟨k1, v⟩ := hd
    by_cases h : k1 = k
    · simpa [eraseKey, h] using ih
    · simp [eraseKey, h, lookupKey, ih]

/-- Erasing one key leaves lookups of any other key unchanged. -/
theorem lookupKey_eraseKey_ne {α : Type} (k k1 : String) (h : k1 ≠ k)
    (l : List (String × α)) : lookupKey k1 (eraseKey k l) = lookupKey k1 l := by
  induction l with
  | nil => rfl
  | cons hd tl ih =>
    obtain ⟨k2, v⟩ := hd
    by_cases h2 : k2 = k
    · have h3 : ¬ k2 = k1 := by
        rw [h2]
        exact fun hh => h hh.symm
      simp [eraseKey, h2, lookupKey, h3, ih, Ne.symm h]
    · by_cases h3 : k2 = k1 <;>
        simp [eraseKey, h2, lookupKey, h3, ih, h, Ne.symm h]

/-- Looking up the key just set finds the new value. -/
theorem lookupKey_setKey_self {α : Type} (k : String) (v : α) (l : List (String × α)) :
    lookupKey k (setKey k v l) = some v := by
  induction l with
  | nil => simp [setKey, lookupKey]
  | cons hd tl ih =>
    obtain ⟨k1, v1⟩ := hd
    by_cases h : k1 = k
    · simp [setKey, h, lookupKey]
    · simp [setKey, h, lookupKey, ih]

/-- Setting one key leaves lookups of any other key unchanged. -/
theorem lookupKey_setKey_ne {α : Type} (k k1 : String) (h : k1 ≠ k) (v : α)
    (l : List (String × α)) : lookupKey k1 (setKey k v l) = lookupKey k1 l := by
  induction l with
  | nil => simp [setKey, lookupKey, Ne.symm h]
  | cons hd tl ih =>
    obtain ⟨k2, v1⟩ := hd
    by_cases h2 : k2 = k
    · subst h2
      simp [setKey, lookupKey, Ne.symm h, ih]
    · by_cases h3 : k2 = k1 <;>
        simp [setKey, h2, lookupKey, h3, ih, h, Ne.symm h]

/-- A key outside the key list is bound zero times. -/
theorem countKey_eq_zero_of_not_mem_keys {α : Type} (k : String) (l : List (String × α))
    (h : k ∉ keys l) : countKey k l = 0 := by
  induction l with
  | nil => rfl
  | cons hd tl ih =>
    obtain ⟨k1, v⟩ := hd
    have h1 : ¬ k1 = k := by
      intro hh
      refine h ?_
      simp only [keys, List.map_cons, List.mem_cons]
      exact Or.inl hh.symm
    have h2 : k ∉ keys tl := by
      intro hh
      refine h ?_
      simp only [keys, List.map_cons, List.mem_cons]
      exact Or.inr hh
    simp [countKey, h1, ih h2]

/-- Under unique keys, every key is bound at most once. -/
theorem countKey_le_one_of_nodup {α : Type} (k : String) (l : List (String × α))
    (h : (keys l).Nodup) : countKey k l ≤ 1 := by
  induction l with
  | nil => simp [countKey]
  | cons hd tl ih =>
    obtain ⟨k1, v⟩ := hd
    simp only [keys, List.map_cons, List.nodup_cons] at h
    by_cases h1 : k1 = k
    · have hz : countKey k tl = 0 := by
        refine countKey_eq_zero_of_not_mem_keys k tl ?_
        rw [← h1]
        exact h.1
      simp [countKey, h1, hz]
    · simpa [countKey, h1] using ih h.2

/-- Erasing a key removes every binding of it. -/
theorem countKey_eraseKey_self {α : Type} (k : String) (l : List (String × α)) :
    countKey k (eraseKey k l) = 0 := by
  induction l with
  | nil => rfl
  | cons hd tl ih =>
    obtain ⟨k1, v⟩ := hd
    by_cases h : k1 = k
    · simpa [eraseKey, h] using ih
    · simp [eraseKey, h, countKey, ih]

/-- Erasing a key cannot increase the binding count of any key. -/
theorem countKey_eraseKey_le {α : Type} (k k1 : String) (l : List (String × α)) :
    countKey k1 (eraseKey k l) ≤ countKey k1 l := by
  induction l with
  | nil => simp [eraseKey]
  | cons hd tl ih =>
    obtain ⟨k2, v⟩ := hd
    by_cases h : k2 = k
    · have her : eraseKey k ((k2, v) :: tl) = eraseKey k tl := by
        simp [eraseKey, h]
      rw [her]
      refine le_trans ih ?_
      by_cases h2 : k2 = k1 <;> simp [countKey, h2]
    · have her : eraseKey k ((k2, v) :: tl) = (k2, v) :: eraseKey k tl := by
        simp [eraseKey, h]
      rw [her]
      by_cases h2 : k2 = k1 <;> simp [countKey, h2] <;> omega

/-- Setting a key bound at most once leaves it bound exactly once. -/
theorem countKey_setKey_self {α : Type} (k : String) (v : α) (l : List (String × α))
    (h : countKey k l ≤ 1) : countKey k (setKey k v l) = 1 := by
  induction l with
  | nil => simp [setKey, countKey]
  | cons hd tl ih =>
    obtain ⟨k1, v1⟩ := hd
    by_cases h1 : k1 = k
    · have hz : countKey k tl = 0 := by
        simp [countKey, h1] at h
        omega
      simp [setKey, h1, countKey, hz]
    · have h2 : countKey k tl ≤ 1 := by simpa [countKey, h1] using h
      simp [setKey, h1, countKey, ih h2]

/-- Setting one key leaves the binding count of any other key unchanged. -/
theorem countKey_setKey_ne {α : Type} (k k1 : String) (h : k1 ≠ k) (v : α)
    (l : List (String × α)) : countKey k1 (setKey k v l) = countKey k1 l := by
  induction l with
  | nil => simp [setKey, countKey, Ne.symm h]
  | cons hd tl ih =>
    obtain ⟨k2, v1⟩ := hd
    by_cases h2 : k2 = k
    · subst h2
      simp [setKey, countKey, Ne.symm h, ih]
    · by_cases h3 : k2 = k1 <;>
        simp [setKey, h2, countKey, h3, ih, h, Ne.symm h]

/-- Erasing a key that is not bound is the identity. -/
theorem eraseKey_eq_of_countKey_zero {α : Type} (k : String) (l : List (String × α))
    (h : countKey k l = 0) : eraseKey k l = l := by
  induction l with
  | nil => rfl
  | cons hd tl ih =>
    obtain ⟨k1, v⟩ := hd
    by_cases h1 : k1 = k
    · simp [countKey, h1] at h
    · have h2 : countKey k tl = 0 := by simpa [countKey, h1] using h
      simp [eraseKey, h1, ih h2]

/-- A value absent from the bindings of the other keys, and different from
the value being set, is absent from the value list after the update,
provided the updated key was bound at most once. -/
theorem not_mem_sndList_setKey {α : Type} (k : String) (v x : α) :
    ∀ l : List (String × α), countKey k l ≤ 1 →
      x ∉ (eraseKey k l).map Prod.snd → x ≠ v →
      x ∉ (setKey k v l).map Prod.snd := by
  intro l
  induction l with
  | nil =>
    intro _ _ hv
    simp [setKey, hv]
  | cons hd tl ih =>
    intro hcount hx hv
    obtain ⟨k1, v1⟩ := hd
    by_cases h1 : k1 = k
    · have hz : countKey k tl = 0 := by
        simp [countKey, h1] at hcount
        omega
      have her : eraseKey k ((k1, v1) :: tl) = tl := by
        simp [eraseKey, h1, eraseKey_eq_of_countKey_zero k tl hz]
      rw [her] at hx
      have hset : setKey k v ((k1, v1) :: tl) = (k, v) :: tl := by
        simp [setKey, h1]
      rw [hset, List.map_cons]
      intro hmem
      rcases List.mem_cons.mp hmem with hh | hh
      · exact hv hh
      · exact hx hh
    · have hc2 : countKey k tl ≤ 1 := by simpa [countKey, h1] using hcount
      have her2 : eraseKey k ((k1, v1) :: tl) = (k1, v1) :: eraseKey k tl := by
        simp [eraseKey, h1]
      have hxv1 : x ≠ v1 := by
        intro hh
        refine hx ?_
        rw [her2, List.map_cons, hh]
        exact List.mem_cons_self v1 _
      have hx2 : x ∉ (eraseKey k tl).map Prod.snd := by
        intro hh
        refine hx ?_
        rw [her2, List.map_cons]
        exact List.mem_cons_of_mem v1 hh
      intro hmem
      simp only [setKey, if_neg h1, List.map_cons, List.mem_cons] at hmem
      rcases hmem with hh | hh
      · exact hxv1 hh
      · exact ih hc2 hx2 hv hh

/-- C3: the registry binds a clientID to at most one session.  Both
registry-mutating steps, session registration with eviction and the
message-loop exit cleanup, preserve the at-most-one-binding invariant, and
a second successful Auth for a clientID already bound to session S1
forcibly closes and evicts S1 and leaves the key bound exactly to the new
session S2: S2 is the unique binding, S1 is recorded closed, and S2 is not
closed. -/
theorem session_registry_eviction (st : BrokerState) (c : String) (s1 : Nat)
    (hwf : (keys st.sessions).Nodup)
    (hold : lookupKey c st.sessions = some s1)
    (hfresh : s1 ≠ st.nextSid)
    (hnc : st.nextSid ∉ st.closedSessions) :
    (∀ k, countKey k (authRegister st c).1.sessions ≤ 1) ∧
    (∀ c1 sid k, countKey k (sessionExitCleanup st c1 sid).sessions ≤ 1) ∧
    lookupKey c (authRegister st c).1.sessions = some (authRegister st c).2 ∧
    countKey c (authRegister st c).1.sessions = 1 ∧
    (authRegister st c).2 ≠ s1 ∧
    s1 ∈ (authRegister st c).1.closedSessions ∧
    (authRegister st c).2 ∉ (authRegister st c).1.closedSessions := by
  have hev : authEvict st c =
      { st with sessions := eraseKey c st.sessions,
                closedSessions := s1 :: st.closedSessions } := by
    simp [authEvict, hold]
  have hsess : (authRegister st c).1.sessions =
      setKey c st.nextSid (eraseKey c st.sessions) := by
    simp [authRegister, hev]
  have hclsd : (authRegister st c).1.closedSessions = s1 :: st.closedSessions := by
    simp [authRegister, hev]
  have hsid : (authRegister st c).2 = st.nextSid := by
    simp [authRegister, hev]
  have h0 : countKey c (eraseKey c st.sessions) ≤ 1 := by
    rw [countKey_eraseKey_self]
    omega
  refine ⟨?_, ?_, ?_, ?_, ?_, ?_, ?_⟩
  · intro k
    rw [hsess]
    by_cases hk : k = c
    · subst hk
      simp [countKey_setKey_self k st.nextSid (eraseKey k st.sessions) h0]
    · rw [countKey_setKey_ne c k hk st.nextSid (eraseKey c st.sessions)]
      exact le_trans (countKey_eraseKey_le c k st.sessions)
        (countKey_le_one_of_nodup k st.sessions hwf)
  · intro c1 sid k
    by_cases hcl : lookupKey c1 st.sessions = some sid
    · have hstep : sessionExitCleanup st c1 sid =
          { st with sessions := eraseKey c1 st.sessions } := by
        simp [sessionExitCleanup, hcl]
      rw [hstep]
      exact le_trans (countKey_eraseKey_le c1 k st.sessions)
        (countKey_le_one_of_nodup k st.sessions hwf)
    · have hstep : sessionExitCleanup st c1 sid = st := by
        simp [sessionExitCleanup, hcl]
      rw [hstep]
      exact countKey_le_one_of_nodup k st.sessions hwf
  · rw [hsess, hsid]
    exact lookupKey_setKey_self c st.nextSid (eraseKey c st.sessions)
  · rw [hsess]
    exact countKey_setKey_self c st.nextSid (eraseKey c st.sessions) h0
  · rw [hsid]
    exact fun hh => hfresh hh.symm
  · rw [hclsd]
    exact List.mem_cons_self s1 st.closedSessions
  · rw [hsid, hclsd]
    intro hmem
    rcases List.mem_cons.mp hmem with hh | hh
    · exact hfresh hh.symm
    · exact hnc hh

/-- C3 witness: the eviction facts evaluated on a registry holding one
session (identity 0) for clientID c1. -/
theorem session_registry_eviction_witness :
    lookupKey "c1" (authRegister stSession "c1").1.sessions =
      some (authRegister stSession "c1").2 ∧
    countKey "c1" (authRegister stSession "c1").1.sessions = 1 ∧
    (authRegister stSession "c1").2 ≠ 0 ∧
    0 ∈ (authRegister stSession "c1").1.closedSessions ∧
    (authRegister stSession "c1").2 ∉ (authRegister stSession "c1").1.closedSessions :=
  have h := session_registry_eviction stSession "c1" 0 (by decide) (by decide)
    (by decide) (by decide)
  ⟨h.2.2.1, h.2.2.2.1, h.2.2.2.2.1, h.2.2.2.2.2.1, h.2.2.2.2.2.2⟩

/-- C8: when a session message loop exits, the broker removes the registry
entry for its clientID only when that entry still holds this exact session
object; when the entry was replaced by a newer session, or is gone, the
whole state is left untouched, and entries of other clientIDs are never
modified, nor are the closed set and the proxies registry. -/
theorem session_exit_cleanup_guard (st : BrokerState) (c : String) (sid : Nat) :
    (lookupKey c st.sessions = some sid →
      (sessionExitCleanup st c sid).sessions = eraseKey c st.sessions ∧
      lookupKey c (sessionExitCleanup st c sid).sessions = none) ∧
    (∀ sid1, lookupKey c st.sessions = some sid1 → sid1 ≠ sid →
      sessionExitCleanup st c sid = st) ∧
    (lookupKey c st.sessions = none → sessionExitCleanup st c sid = st) ∧
    (∀ k, k ≠ c → lookupKey k (sessionExitCleanup st c sid).sessions =
      lookupKey k st.sessions) ∧
    (sessionExitCleanup st c sid).closedSessions = st.closedSessions ∧
    (sessionExitCleanup st c sid).proxies = st.proxies := by
  refine ⟨?_, ?_, ?_, ?_, ?_, ?_⟩
  · intro hsame
    have hstep : sessionExitCleanup st c sid =
        { st with sessions := eraseKey c st.sessions } := by
      simp [sessionExitCleanup, hsame]
    rw [hstep]
    exact ⟨rfl, lookupKey_eraseKey_self c st.sessions⟩
  · intro sid1 hlk hne
    have hcl : ¬ lookupKey c st.sessions = some sid := by
      rw [hlk]
      intro hh
      exact hne (Option.some.injEq sid1 sid ▸ hh)
    simp [sessionExitCleanup, hcl]
  · intro hnone
    have hcl : ¬ lookupKey c st.sessions = some sid := by
      rw [hnone]
      intro hh
      exact Option.noConfusion hh
    simp [sessionExitCleanup, hcl]
  · intro k hk
    by_cases hcl : lookupKey c st.sessions = some sid
    · have hstep : sessionExitCleanup st c sid =
          { st with sessions := eraseKey c st.sessions } := by
        simp [sessionExitCleanup, hcl]
      rw [hstep]
      exact lookupKey_eraseKey_ne c k hk st.sessions
    · simp [sessionExitCleanup, hcl]
  · by_cases hcl : lookupKey c st.sessions = some sid <;> simp [sessionExitCleanup, hcl]
  · by_cases hcl : lookupKey c st.sessions = some sid <;> simp [sessionExitCleanup, hcl]

/-- C8 witness: the guard evaluated on a registry holding session 0 for
clientID c1: the owner removes its entry, a stale exiting session (claimed
identity 7) leaves the registry untouched. -/
theorem session_exit_cleanup_guard_witness :
    lookupKey "c1" (sessionExitCleanup stSession "c1" 0).sessions = none ∧
    sessionExitCleanup stSession "c1" 7 = stSession :=
  ⟨((session_exit_cleanup_guard stSession "c1" 0).1 (by decide)).2,
   (session_exit_cleanup_guard stSession "c1" 7).2.1 0 (by decide) (by decide)⟩

/-- C6 counterexample: the claim states that every close cause in the
Authenticating state other than transport-level timeout or IO failure
sends an explicit failure response before the close; but for a first
message whose kind is not Auth (here a Ping), handleNewConnection closes
the connection without sending any response at all, so the claim is false
at this input (no session is created either way). -/
theorem auth_wrong_kind_counterexample :
    handleAuthPhase "test-token" (FirstRead.msg proto.TypePing none) =
      ⟨[], true, none⟩ := by
  decide

/-- C6 amended: in the Authenticating state, an undecodable Auth body and a
token mismatch each send exactly one explicit failure response before the
connection is closed; a first message whose kind is not Auth, and a
transport-level read failure, close the connection without a response; in
every failure case no session is created. -/
theorem auth_failure_responses (tok : String) (req : AuthRequest) (t : Nat)
    (dec : Option AuthRequest) :
    (handleAuthPhase tok (FirstRead.msg proto.TypeAuth none) =
      ⟨[⟨false, "认证消息格式错误"⟩], true, none⟩) ∧
    (req.token ≠ tok →
      handleAuthPhase tok (FirstRead.msg proto.TypeAuth (some req)) =
        ⟨[⟨false, "Token 错误"⟩], true, none⟩) ∧
    (t ≠ proto.TypeAuth → handleAuthPhase tok (FirstRead.msg t dec) = ⟨[], true, none⟩) ∧
    handleAuthPhase tok FirstRead.readErr = ⟨[], true, none⟩ := by
  refine ⟨?_, ?_, ?_, rfl⟩
  · simp [handleAuthPhase]
  · intro h
    simp [handleAuthPhase, h]
  · intro h
    simp [handleAuthPhase, h]

/-- C6 amended witness: the token-mismatch and wrong-kind branches
evaluated at concrete inputs. -/
theorem auth_failure_responses_witness :
    handleAuthPhase "tk" (FirstRead.msg proto.TypeAuth (some ⟨"c9", "bad", "1.0"⟩)) =
      ⟨[⟨false, "Token 错误"⟩], true, none⟩ ∧
    handleAuthPhase "tk" (FirstRead.msg proto.TypePong none) = ⟨[], true, none⟩ :=
  ⟨(auth_failure_responses "tk" ⟨"c9", "bad", "1.0"⟩ proto.TypePong none).2.1 (by decide),
   (auth_failure_responses "tk" ⟨"c9", "bad", "1.0"⟩ proto.TypePong none).2.2.1 (by decide)⟩

/-- C7: tunnel registration validates the requested public port against the
whitelist.  An empty whitelist allows every port; a non-whitelisted port
draws an explicit failure response while the broker state, the session
included, is left entirely unchanged, so the session can retry; a
whitelisted port (with the bind succeeding) draws a success response
carrying the requested port.  In particular with whitelist consisting of
8080, port 8080 is allowed and port 9090 is not. -/
theorem register_port_whitelist (portSet : List Int) (st : BrokerState)
    (r r1 : RegisterTunnelRequest) (bindOk : Bool) :
    (∀ p : Int, isPortAllowed [] p = true) ∧
    (isPortAllowed portSet r.tunnel.remotePort = false →
      handleRegisterTunnel portSet st (some r) bindOk =
        (st, ⟨false, "端口不允许使用", "", 0⟩)) ∧
    (isPortAllowed [(8080 : Int)] 8080 = true ∧ isPortAllowed [(8080 : Int)] 9090 = false) ∧
    (isPortAllowed portSet r1.tunnel.remotePort = true →
      (handleRegisterTunnel portSet st (some r1) true).2.success = true ∧
      (handleRegisterTunnel portSet st (some r1) true).2.remotePort =
        r1.tunnel.remotePort) := by
  refine ⟨?_, ?_, by decide, ?_⟩
  · intro p
    simp [isPortAllowed]
  · intro h
    simp [handleRegisterTunnel, h, sendRegisterTunnelResponse]
  · intro h
    simp [handleRegisterTunnel, h, sendRegisterTunnelResponse]

/-- C7 witness: with whitelist consisting of 8080, a request for 9090 is
refused with an explicit failure and the state is unchanged, and a request
for 8080 succeeds with the bound port echoed. -/
theorem register_port_whitelist_witness :
    handleRegisterTunnel [(8080 : Int)] stSession
        (some ⟨⟨"web9", "tcp", "127.0.0.1:3000", 9090⟩⟩) true =
      (stSession, ⟨false, "端口不允许使用", "", 0⟩) ∧
    (handleRegisterTunnel [(8080 : Int)] stSession (some reqWeb) true).2.success = true ∧
    (handleRegisterTunnel [(8080 : Int)] stSession (some reqWeb) true).2.remotePort =
      reqWeb.tunnel.remotePort :=
  have h := register_port_whitelist [(8080 : Int)] stSession
    ⟨⟨"web9", "tcp", "127.0.0.1:3000", 9090⟩⟩ reqWeb true
  ⟨h.2.1 (by decide), (h.2.2.2 (by decide)).1, (h.2.2.2 (by decide)).2⟩

/-- C9: on a successful registration of tunnel web for public port 8080 the
broker starts a listening proxy on the requested port and answers with a
success response carrying the bound port, but the tunnel-name field of the
response is left empty: sendRegisterTunnelResponse never sets TunnelName,
although the response type declares the field, the protocol document
shows it populated in the success example, and the client-side test mock
fills it.  The response therefore does not include the tunnel name the
claim (and the repository documentation) promises. -/
theorem register_response_lacks_name :
    (handleRegisterTunnel [] st0 (some reqWeb) true).2.success = true ∧
    (handleRegisterTunnel [] st0 (some reqWeb) true).2.remotePort = 8080 ∧
    (handleRegisterTunnel [] st0 (some reqWeb) true).1.heap =
      [⟨0, "web", 8080, false, true⟩] ∧
    (handleRegisterTunnel [] st0 (some reqWeb) true).1.proxies = [("web", 0)] ∧
    (handleRegisterTunnel [] st0 (some reqWeb) true).2.tunnelName = "" ∧
    reqWeb.tunnel.name = "web" := by
  decide

/-- C1: the data path of Proxy.handleConnection, evaluated for every proxy
and either dial outcome: it always dials the hard-coded address
127.0.0.1:8080, never sends any notification over a control connection
(so no fresh proxyID is ever generated or announced and no handshake entry
is recorded), runs the forward labelled with the tunnel name when the dial
succeeds, and merely closes the inbound connection when the dial fails —
contradicting the claimed notify-and-wait handshake. -/
theorem proxy_data_path_no_notification (p : ProxyObj) (dialOk : Bool) :
    handleConnection p true =
      [ProxyAction.dialTCP "127.0.0.1:8080", ProxyAction.forwardPair p.name,
        ProxyAction.closeData, ProxyAction.closeUser] ∧
    handleConnection p false =
      [ProxyAction.dialTCP "127.0.0.1:8080", ProxyAction.closeUser] ∧
    (handleConnection p dialOk).filter ProxyAction.isControlNotify = [] := by
  refine ⟨rfl, rfl, ?_⟩
  cases dialOk <;> rfl

/-- C2: the broker has no handler for the data-channel-ready kind.  A
ProxyReady message arriving on an established control connection falls to
the default branch of handleMessage, which leaves the entire broker state
unchanged, closes nothing and pairs nothing; and a ProxyReady presented as
the first message of a fresh connection (the way a data channel would
present it) is treated as a failed authentication: the connection is
closed without any response and without any pairing.  The claimed
consume-once proxyID correlation does not exist in the code. -/
theorem proxy_ready_unhandled (portSet : List Int) (st : BrokerState)
    (req : Option RegisterTunnelRequest) (bindOk : Bool) (tok : String)
    (dec : Option AuthRequest) :
    handleMessage portSet st proto.TypeProxyReady req bindOk = ⟨st, false, false, none⟩ ∧
    handleAuthPhase tok (FirstRead.msg proto.TypeProxyReady dec) = ⟨[], true, none⟩ := by
  constructor
  · simp [handleMessage, proto.TypeProxyReady, proto.TypePing, proto.TypePong,
      proto.TypeRegisterTunnel]
  · simp [handleAuthPhase, proto.TypeProxyReady, proto.TypeAuth]

/-- C10: a successful registration under a tunnel name already bound in the
proxies registry overwrites the binding with the freshly started proxy
while the previously stored proxy object is never stopped: it survives on
the heap with its closed flag still false and its listener still running,
its identity no longer appears anywhere in the registry, and even the
broker-shutdown sweep over the registry leaves it untouched. -/
theorem register_overwrite_leaks_proxy (portSet : List Int) (st : BrokerState)
    (r : RegisterTunnelRequest) (oldPid : Nat) (obj : ProxyObj)
    (hkeys : (keys st.proxies).Nodup)
    (hlk : lookupKey r.tunnel.name st.proxies = some oldPid)
    (hobj : obj ∈ st.heap) (hpid : obj.pid = oldPid)
    (hclosed : obj.closed = false)
    (honly : oldPid ∉ (eraseKey r.tunnel.name st.proxies).map Prod.snd)
    (hfresh : oldPid ≠ st.nextPid)
    (hallow : isPortAllowed portSet r.tunnel.remotePort = true) :
    lookupKey r.tunnel.name (handleRegisterTunnel portSet st (some r) true).1.proxies =
      some st.nextPid ∧
    st.nextPid ≠ oldPid ∧
    obj ∈ (handleRegisterTunnel portSet st (some r) true).1.heap ∧
    oldPid ∉ ((handleRegisterTunnel portSet st (some r) true).1.proxies).map Prod.snd ∧
    stopProxyObj (((handleRegisterTunnel portSet st (some r) true).1.proxies).map Prod.snd)
      obj = obj ∧
    obj ∈ (stopProxies (handleRegisterTunnel portSet st (some r) true).1).heap ∧
    obj.closed = false := by
  have hpr : (handleRegisterTunnel portSet st (some r) true).1.proxies =
      setKey r.tunnel.name st.nextPid st.proxies := by
    simp [handleRegisterTunnel, hallow]
  have hhp : (handleRegisterTunnel portSet st (some r) true).1.heap =
      ⟨st.nextPid, r.tunnel.name, r.tunnel.remotePort, false, true⟩ :: st.heap := by
    simp [handleRegisterTunnel, hallow]
  have hnotin : oldPid ∉ (setKey r.tunnel.name st.nextPid st.proxies).map Prod.snd :=
    not_mem_sndList_setKey r.tunnel.name st.nextPid oldPid st.proxies
      (countKey_le_one_of_nodup r.tunnel.name st.proxies hkeys) honly hfresh
  have hstopeq : stopProxyObj ((setKey r.tunnel.name st.nextPid st.proxies).map Prod.snd)
      obj = obj := by
    have hnm : ¬ obj.pid ∈ (setKey r.tunnel.name st.nextPid st.proxies).map Prod.snd := by
      rw [hpid]
      exact hnotin
    simp [stopProxyObj, hnm]
  refine ⟨?_, fun hh => hfresh hh.symm, ?_, ?_, ?_, ?_, hclosed⟩
  · rw [hpr]
    exact lookupKey_setKey_self r.tunnel.name st.nextPid st.proxies
  · rw [hhp]
    exact List.mem_cons_of_mem _ hobj
  · rw [hpr]
    exact hnotin
  · rw [hpr]
    exact hstopeq
  · show obj ∈ ((handleRegisterTunnel portSet st (some r) true).1.heap).map
      (stopProxyObj (((handleRegisterTunnel portSet st (some r) true).1.proxies).map Prod.snd))
    rw [hpr, hhp]
    have hmem : stopProxyObj ((setKey r.tunnel.name st.nextPid st.proxies).map Prod.snd) obj ∈
        (⟨st.nextPid, r.tunnel.name, r.tunnel.remotePort, false, true⟩ :: st.heap).map
          (stopProxyObj ((setKey r.tunnel.name st.nextPid st.proxies).map Prod.snd)) :=
      List.mem_map_of_mem _ (List.mem_cons_of_mem _ hobj)
    rwa [hstopeq] at hmem

/-- C10 witness: re-registering tunnel web over a broker already running a
proxy (identity 0) for web leaves the old object unreferenced, unstopped
and still listed open on the heap even after the shutdown sweep. -/
theorem register_overwrite_leaks_proxy_witness :
    lookupKey "web" (handleRegisterTunnel [] stWeb (some reqWeb) true).1.proxies =
      some 1 ∧
    (⟨0, "web", 8080, false, true⟩ : ProxyObj) ∈
      (stopProxies (handleRegisterTunnel [] stWeb (some reqWeb) true).1).heap ∧
    (0 : Nat) ∉ ((handleRegisterTunnel [] stWeb (some reqWeb) true).1.proxies).map
      Prod.snd :=
  have h := register_overwrite_leaks_proxy [] stWeb reqWeb 0 ⟨0, "web", 8080, false, true⟩
    (by decide) (by decide) (by decide) rfl rfl (by decide) (by decide) (by decide)
  ⟨h.1, h.2.2.2.2.2.1, h.2.2.2.1⟩

end server

end GoTunnel
